import Mathlib

set_option linter.unusedVariables false

/-!
Shallow embedding of the request routing and dispatch core of
`server/imgapisrv.go` (imgapi).

URL paths are modelled as lists of characters, parsed query parameters as an
association list, and the two external effects the core consults — the
filesystem (`os.Stat`) and the query parser (`url.ParseQuery`) — as oracles
carried by the request or passed alongside the configuration.  Each handler
returns an `HttpResult` describing the single observable effect of the
request: one structured response, one bare status write, one delegation to a
collaborator, or no write at all.
-/

/-- One entry of the configured user database (`common.Configuration.Userdb`). -/
structure UserEntry where
  name : String
  password : String
deriving DecidableEq

/-- The fields of `common.Configuration` read by the dispatch core:
the data directory and the ordered user database. -/
structure Configuration where
  datadir : String
  userdb : List UserEntry

/-- Result of the `os.Stat` oracle: success (`err == nil`), a not-exist
error (`os.IsNotExist(err)` holds), or another error carrying its rendered
text (used by `fmt.Sprintf` in the POST handler). -/
inductive StatResult where
  | ok : StatResult
  | errNotExist : StatResult
  | errOther : String → StatResult
deriving DecidableEq

/-- The operation handlers (external collaborators) the core delegates to. -/
inductive Op where
  | ListImages : Op
  | GetImage : Op
  | GetImageIcon : Op
  | GetImageFile : Op
  | DeleteImage : Op
  | DeleteImageIcon : Op
  | CreateImage : Op
  | AddImageIcon : Op
  | AddImageFile : Op
  | ActivateImage : Op
  | UpdateImage : Op
  | DisableImage : Op
  | EnableImage : Op
deriving DecidableEq

/-- The single observable effect the core has on the response writer for one
request: a JSON error response (`sendResponse` with a body carrying the
symbolic `code` and a `message`), a bare status (`w.WriteHeader` alone, no
body), delegation to an operation handler together with the filesystem path
or data directory handed to it, no write at all (the handler returns without
touching the writer), or a Go runtime error from indexing an empty slice. -/
inductive HttpResult where
  | respond : Nat → String → String → HttpResult
  | bare : Nat → HttpResult
  | call : Op → String → HttpResult
  | noResponse : HttpResult
  | indexOutOfRange : HttpResult
deriving DecidableEq

/-- Modelled from the spec: the `errorcodes` package is not under `src/`;
§6/§7 place `InvalidParameter` in the 4xx client-error class.  The concrete
number is irrelevant to the dispatch logic, which is compared on the
symbolic code. -/
def errorcodes.InvalidParameter : Nat := 422

/-- Modelled from the spec: the `errorcodes` package is not under `src/`;
§6/§7 place `ResourceNotFound` in the 404 class. -/
def errorcodes.ResourceNotFound : Nat := 404

/-- Modelled from the spec: the `errorcodes` package is not under `src/`;
§6/§7 place `InternalError` in the 5xx class. -/
def errorcodes.InternalError : Nat := 500

/-- Modelled from the spec: the `errorcodes` package is not under `src/`;
§6/§7 place `UnauthorizedError` in the 401 class. -/
def errorcodes.UnauthorizedError : Nat := 401

/-- Modelled from the spec: the `errorcodes` package is not under `src/`;
§6/§7 place `AccountDoesNotExist` in the 401 class. -/
def errorcodes.AccountDoesNotExist : Nat := 401

/-- Modelled from the spec: the `errorcodes` package is not under `src/`;
§6 describes `InsufficientServerVersion` as "recognized but unimplemented
feature"; 501 Not Implemented is the representative status. -/
def errorcodes.InsufficientServerVersion : Nat := 501

/-- Parsed query parameters (`url.Values`): a finite map from key to list of
values, modelled as an association list. -/
abbrev Params := List (String × List String)

/-- Go map lookup `params[key]` together with its `ok` flag, as an `Option`. -/
def getParam (params : Params) (key : String) : Option (List String) :=
  match params.find? (fun q => q.fst == key) with
  | some q => some q.snd
  | none => none

/-- `strings.Index(l, sep)` for a single-character separator: the index of
the first occurrence, with Go's `-1` rendered as `none`. -/
def stringIndex (l : List Char) (c : Char) : Option Nat :=
  match l with
  | [] => none
  | x :: xs => if x = c then some 0 else (stringIndex xs c).map (· + 1)

/-- `splitImagesUrl`: split a `/images/:uuid/file` style URL into the uuid
and the raw subresource tag (the tag keeps its leading slash).  The Go check
`strings.Index(url, "/images/") != 0` holds exactly when the 8-character
prefix is absent, so it is modelled by comparing the first 8 characters;
`uuid = url[8:]` is `url.drop 8`, and the split at the first slash uses
`stringIndex`. -/
def splitImagesUrl (url : List Char) : Except String (List Char × List Char) :=
  if url.take 8 = "/images/".toList then
    if (url.drop 8).length = 0 then
      Except.error "Invalid url"
    else
      match stringIndex (url.drop 8) '/' with
      | some i => Except.ok ((url.drop 8).take i, (url.drop 8).drop i)
      | none => Except.ok (url.drop 8, [])
  else
    Except.error "Invalid url"

/-- The candidate filesystem path `configuration.Datadir + "/" + uuid`
computed by every per-uuid handler. -/
def resourcePath (cfg : Configuration) (uuid : List Char) : String :=
  cfg.datadir ++ "/" ++ String.mk uuid

/-- `doHandleGetImages`: GET routing.  Note the literal behaviour of the
source: a *successful* `os.Stat` (path exists) produces the
`ResourceNotFound` response, and dispatch happens only when `os.Stat`
fails; its error renders as `<nil>` inside the message because the format
string prints the nil error value. -/
def doHandleGetImages (cfg : Configuration) (stat : String → StatResult)
    (path : List Char) (params : Params) : HttpResult :=
  if path = "/images".toList then
    HttpResult.call Op.ListImages cfg.datadir
  else
    match splitImagesUrl path with
    | Except.error e =>
      HttpResult.respond errorcodes.InvalidParameter "InvalidParameter" e
    | Except.ok (uuid, file) =>
      match stat (resourcePath cfg uuid) with
      | StatResult.ok =>
        HttpResult.respond errorcodes.ResourceNotFound "ResourceNotFound"
          ("Failed to locate " ++ resourcePath cfg uuid ++ ": <nil>")
      | _ =>
        if file.length = 0 then
          HttpResult.call Op.GetImage (resourcePath cfg uuid)
        else if file = "/icon".toList then
          HttpResult.call Op.GetImageIcon (resourcePath cfg uuid)
        else if file = "/file".toList then
          HttpResult.call Op.GetImageFile (resourcePath cfg uuid)
        else
          HttpResult.respond errorcodes.ResourceNotFound "ResourceNotFound"
            "Requested resource does not exist"

/-- `doHandleDeleteImages`: DELETE routing. -/
def doHandleDeleteImages (cfg : Configuration) (path : List Char)
    (params : Params) : HttpResult :=
  match splitImagesUrl path with
  | Except.error _ =>
    HttpResult.respond errorcodes.InvalidParameter "InvalidParameter"
      "Failed to decode URL"
  | Except.ok (uuid, file) =>
    if file.length > 0 then
      if file = "/icon".toList then
        HttpResult.call Op.DeleteImageIcon (resourcePath cfg uuid)
      else
        HttpResult.respond errorcodes.ResourceNotFound "ResourceNotFound"
          "Resource does not exists"
    else
      HttpResult.call Op.DeleteImage (resourcePath cfg uuid)

/-- `doHandlePostImages`: POST routing and the action resolver.  In Go a
`switch` case with an empty statement list does not fall through to the next
case: the cases `"export"`, `"copy-remote"`, `"import-remote"` and
`"import"` in the source have empty bodies, so control leaves the switch
without writing anything, and only `"channel-add"` reaches the
`InsufficientServerVersion` response that the grouped comment intended for
all five actions. -/
def doHandlePostImages (cfg : Configuration) (stat : String → StatResult)
    (path : List Char) (params : Params) : HttpResult :=
  if path = "/images".toList then
    HttpResult.call Op.CreateImage cfg.datadir
  else
    match splitImagesUrl path with
    | Except.error _ =>
      HttpResult.respond errorcodes.InvalidParameter "InvalidParameter"
        "Failed to decode URL"
    | Except.ok (uuid, file) =>
      match stat (resourcePath cfg uuid) with
      | StatResult.errNotExist =>
        HttpResult.respond errorcodes.ResourceNotFound "ResourceNotFound"
          "Failed to locate resource"
      | StatResult.errOther msg =>
        HttpResult.respond errorcodes.InternalError "InternalError"
          ("Failed to locate resource " ++ msg)
      | StatResult.ok =>
        if file = "/icon".toList then
          HttpResult.call Op.AddImageIcon (resourcePath cfg uuid)
        else if file = "/acl".toList then
          HttpResult.respond errorcodes.InsufficientServerVersion
            "InsufficientServerVersion" "acl is not implemented"
        else if file = [] then
          match getParam params "action" with
          | some action =>
            match action.head? with
            | none => HttpResult.indexOutOfRange
            | some a =>
              if a = "activate" then
                HttpResult.call Op.ActivateImage (resourcePath cfg uuid)
              else if a = "update" then
                HttpResult.call Op.UpdateImage (resourcePath cfg uuid)
              else if a = "disable" then
                HttpResult.call Op.DisableImage (resourcePath cfg uuid)
              else if a = "enable" then
                HttpResult.call Op.EnableImage (resourcePath cfg uuid)
              else if a = "export" then HttpResult.noResponse
              else if a = "copy-remote" then HttpResult.noResponse
              else if a = "import-remote" then HttpResult.noResponse
              else if a = "import" then HttpResult.noResponse
              else if a = "channel-add" then
                HttpResult.respond errorcodes.InsufficientServerVersion
                  "InsufficientServerVersion"
                  ("action=\"" ++ a ++ "\" is not implemented")
              else
                HttpResult.respond errorcodes.InvalidParameter
                  "InvalidParameter" ("Invalid action \"" ++ a ++ "\"")
          | none =>
            HttpResult.respond errorcodes.InvalidParameter "InvalidParameter"
              "action parameter not specified"
        else
          HttpResult.respond errorcodes.ResourceNotFound "ResourceNotFound"
            "Invalid URL specified"

/-- `doHandlePutImages`: PUT routing.  The source rejects with one shared
response when the parse fails or the subresource differs from `/file`. -/
def doHandlePutImages (cfg : Configuration) (path : List Char)
    (params : Params) : HttpResult :=
  match splitImagesUrl path with
  | Except.error _ =>
    HttpResult.respond errorcodes.InvalidParameter "InvalidParameter"
      "Failed to decode URL"
  | Except.ok (uuid, file) =>
    if file = "/file".toList then
      HttpResult.call Op.AddImageFile (resourcePath cfg uuid)
    else
      HttpResult.respond errorcodes.InvalidParameter "InvalidParameter"
        "Failed to decode URL"

/-- Outcome of the credential-checking loop in `doHandleImages`. -/
inductive AuthResult where
  | authenticated : AuthResult
  | unauthorized : AuthResult
  | accountDoesNotExist : AuthResult
deriving DecidableEq

/-- The credential loop of `doHandleImages`.  `found` carries the Go local
of the same name: `continue` on a name mismatch is the first recursive call;
a name match with a password mismatch returns `UnauthorizedError` at once; a
full match keeps scanning with `found = true` (the loop has no `break`), and
after the loop `!found` yields `AccountDoesNotExist`, otherwise the request
is authenticated. -/
def authLoop (username password : String) (db : List UserEntry)
    (found : Bool) : AuthResult :=
  match db with
  | [] => if found then AuthResult.authenticated else AuthResult.accountDoesNotExist
  | entry :: rest =>
    if username ≠ entry.name then
      authLoop username password rest found
    else if password ≠ entry.password then
      AuthResult.unauthorized
    else
      authLoop username password rest true

/-- The parts of an `http.Request` the core reads: the method, the URL path,
the result of `r.BasicAuth()`, and the result of
`url.ParseQuery(r.URL.RawQuery)` (an oracle — the raw query itself is never
read again by the core). -/
structure Request where
  method : String
  path : List Char
  basicAuth : Option (String × String)
  query : Except Unit Params

/-- The method branch at the end of `doHandleImages`, entered after the
authentication gate has fixed `authenticated`: parse the query, then route
on the verb, GET (or an empty method) being allowed anonymously and
DELETE/POST/PUT answering a bare `UnauthorizedError` status when the caller
is not authenticated.  A method outside the four listed verbs matches no
branch and the function returns without writing. -/
def dispatchMethod (cfg : Configuration) (stat : String → StatResult)
    (r : Request) (authenticated : Bool) : HttpResult :=
  match r.query with
  | Except.error _ =>
    HttpResult.respond errorcodes.InternalError "InternalError"
      "Failed to parse query"
  | Except.ok parameters =>
    if r.method.length = 0 ∨ r.method = "GET" then
      doHandleGetImages cfg stat r.path parameters
    else if r.method = "DELETE" then
      if authenticated then doHandleDeleteImages cfg r.path parameters
      else HttpResult.bare errorcodes.UnauthorizedError
    else if r.method = "POST" then
      if authenticated then doHandlePostImages cfg stat r.path parameters
      else HttpResult.bare errorcodes.UnauthorizedError
    else if r.method = "PUT" then
      if authenticated then doHandlePutImages cfg r.path parameters
      else HttpResult.bare errorcodes.UnauthorizedError
    else
      HttpResult.noResponse

/-- `doHandleImages`: the top-level handler — credential check first, then
`dispatchMethod`. -/
def doHandleImages (cfg : Configuration) (stat : String → StatResult)
    (r : Request) : HttpResult :=
  match r.basicAuth with
  | none => dispatchMethod cfg stat r false
  | some (username, password) =>
    match authLoop username password cfg.userdb false with
    | AuthResult.unauthorized =>
      HttpResult.respond errorcodes.UnauthorizedError "UnauthorizedError"
        "Invalid username/password combination"
    | AuthResult.accountDoesNotExist =>
      HttpResult.respond errorcodes.AccountDoesNotExist "AccountDoesNotExist"
        ("User " ++ username ++ " does not exist")
    | AuthResult.authenticated => dispatchMethod cfg stat r true

/-! ## Facts about the URL parser -/

/-- A successful `stringIndex` points at the separator: the suffix starting
at the returned index begins with the character searched for. -/
theorem stringIndex_head (c : Char) :
    ∀ (l : List Char) (i : Nat), stringIndex l c = some i →
      (l.drop i).head? = some c := by
  intro l
  induction l with
  | nil => intro i h; exact nomatch h
  | cons x xs ih =>
    intro i h
    unfold stringIndex at h
    by_cases hx : x = c
    · rw [if_pos hx] at h
      injection h with h0
      subst h0
      simp [hx]
    · rw [if_neg hx] at h
      cases hj : stringIndex xs c with
      | none => rw [hj] at h; exact nomatch h
      | some j =>
        rw [hj] at h
        simp only [Option.map_some'] at h
        injection h with h0
        subst h0
        simpa using ih j hj

/-- A successful parse implies the path carries the 8-character prefix. -/
theorem splitImagesUrl_take (url u f : List Char)
    (h : splitImagesUrl url = Except.ok (u, f)) :
    url.take 8 = "/images/".toList := by
  unfold splitImagesUrl at h
  split at h
  next htake => exact htake
  next => exact nomatch h

/-- Structure of a successful parse: the two pieces reassemble to the
remainder after the prefix, that remainder is non-empty, and the subresource
is empty or begins with a slash. -/
theorem splitImagesUrl_ok (url u f : List Char)
    (h : splitImagesUrl url = Except.ok (u, f)) :
    u ++ f = url.drop 8 ∧ u ++ f ≠ [] ∧ (f = [] ∨ f.head? = some '/') := by
  have htake := splitImagesUrl_take url u f h
  unfold splitImagesUrl at h
  rw [if_pos htake] at h
  split at h
  next => exact nomatch h
  next hlen =>
    have hne : url.drop 8 ≠ [] := by
      intro hcon
      rw [hcon] at hlen
      exact hlen rfl
    split at h
    next i hidx =>
      injection h with hpair
      injection hpair with hu hf
      subst hu; subst hf
      refine ⟨List.take_append_drop i (url.drop 8), ?_, Or.inr ?_⟩
      · rw [List.take_append_drop]; exact hne
      · exact stringIndex_head '/' (url.drop 8) i hidx
    next hidx =>
      injection h with hpair
      injection hpair with hu hf
      subst hu; subst hf
      exact ⟨by simp, by simpa using hne, Or.inl rfl⟩

/-- A path on which the parser succeeds is never the bare "/images". -/
theorem split_ok_ne_images (url u f : List Char)
    (h : splitImagesUrl url = Except.ok (u, f)) :
    url ≠ "/images".toList := by
  intro hcon
  have htake := splitImagesUrl_take url u f h
  rw [hcon] at htake
  exact absurd htake (by decide)

/-- Claim C6: for every path on which `splitImagesUrl` succeeds, the
returned uuid and subresource tag concatenate to exactly the portion of the
path after the "/images/" prefix (equivalently, the whole path is the prefix
followed by that concatenation). -/
theorem c6_split_round_trip (url u f : List Char)
    (h : splitImagesUrl url = Except.ok (u, f)) :
    u ++ f = url.drop 8 ∧ url = "/images/".toList ++ (u ++ f) := by
  have hok := splitImagesUrl_ok url u f h
  have htake := splitImagesUrl_take url u f h
  refine ⟨hok.1, ?_⟩
  conv_lhs => rw [← List.take_append_drop 8 url]
  rw [htake, hok.1]

/-- Witness for C6 at the concrete path "/images/abc/file". -/
theorem c6_witness :
    splitImagesUrl ("/images/abc/file".toList) =
      Except.ok ("abc".toList, "/file".toList) ∧
    "abc".toList ++ "/file".toList = ("/images/abc/file".toList).drop 8 :=
  ⟨rfl, (c6_split_round_trip ("/images/abc/file".toList) ("abc".toList)
    ("/file".toList) rfl).1⟩

/-! ## Facts about the authenticator -/

/-- Full characterization of the credential loop, generalized over the
`found` flag: it authenticates iff the flag is already set or some entry's
name matches, and in addition every name-matching entry in the remaining
database carries the supplied password. -/
theorem authLoop_auth_iff (u p : String) :
    ∀ (db : List UserEntry) (found : Bool),
      (authLoop u p db found = AuthResult.authenticated ↔
        ((found = true ∨ ∃ e ∈ db, e.name = u) ∧
          ∀ e ∈ db, e.name = u → e.password = p)) := by
  intro db
  induction db with
  | nil =>
    intro found
    cases found <;> simp [authLoop]
  | cons e rest ih =>
    intro found
    by_cases hn : u = e.name
    · by_cases hp : p = e.password
      · rw [authLoop, if_neg (not_not_intro hn), if_neg (not_not_intro hp), ih true]
        constructor
        · rintro ⟨-, hall⟩
          refine ⟨Or.inr ⟨e, List.mem_cons_self e rest, hn.symm⟩, ?_⟩
          intro e' he' hname
          rcases List.mem_cons.mp he' with he1 | he2
          · rw [he1]; exact hp.symm
          · exact hall e' he2 hname
        · rintro ⟨-, hall⟩
          exact ⟨Or.inl rfl, fun e' he' hname => hall e' (List.mem_cons_of_mem e he') hname⟩
      · rw [authLoop, if_neg (not_not_intro hn), if_pos hp]
        constructor
        · intro hcon; exact nomatch hcon
        · rintro ⟨-, hall⟩
          exact absurd (hall e (List.mem_cons_self e rest) hn.symm).symm hp
    · rw [authLoop, if_pos hn, ih found]
      constructor
      · rintro ⟨hf, hall⟩
        refine ⟨?_, ?_⟩
        · rcases hf with h1 | ⟨e', he', hname⟩
          · exact Or.inl h1
          · exact Or.inr ⟨e', List.mem_cons_of_mem e he', hname⟩
        · intro e' he' hname
          rcases List.mem_cons.mp he' with he1 | he2
          · exact absurd (he1 ▸ hname) (fun hc => hn hc.symm)
          · exact hall e' he2 hname
      · rintro ⟨hf, hall⟩
        refine ⟨?_, fun e' he' hname => hall e' (List.mem_cons_of_mem e he') hname⟩
        rcases hf with h1 | ⟨e', he', hname⟩
        · exact Or.inl h1
        · rcases List.mem_cons.mp he' with he1 | he2
          · exact absurd (he1 ▸ hname) (fun hc => hn hc.symm)
          · exact Or.inr ⟨e', he2, hname⟩

/-- The loop reports an unknown account iff the flag is clear and no entry's
name matches. -/
theorem authLoop_ade_iff (u p : String) :
    ∀ (db : List UserEntry) (found : Bool),
      (authLoop u p db found = AuthResult.accountDoesNotExist ↔
        (found = false ∧ ∀ e ∈ db, e.name ≠ u)) := by
  intro db
  induction db with
  | nil =>
    intro found
    cases found <;> simp [authLoop]
  | cons e rest ih =>
    intro found
    by_cases hn : u = e.name
    · by_cases hp : p = e.password
      · rw [authLoop, if_neg (not_not_intro hn), if_neg (not_not_intro hp), ih true]
        constructor
        · rintro ⟨hcon, -⟩; exact nomatch hcon
        · rintro ⟨-, hall⟩
          exact absurd hn.symm (hall e (List.mem_cons_self e rest))
      · rw [authLoop, if_neg (not_not_intro hn), if_pos hp]
        constructor
        · intro hcon; exact nomatch hcon
        · rintro ⟨-, hall⟩
          exact absurd hn.symm (hall e (List.mem_cons_self e rest))
    · rw [authLoop, if_pos hn, ih found]
      constructor
      · rintro ⟨hf, hall⟩
        refine ⟨hf, ?_⟩
        intro e' he'
        rcases List.mem_cons.mp he' with he1 | he2
        · exact he1 ▸ fun hc => hn hc.symm
        · exact hall e' he2
      · rintro ⟨hf, hall⟩
        exact ⟨hf, fun e' he' => hall e' (List.mem_cons_of_mem e he')⟩

/-- Claim C1 fails as stated: with userdb [(a,1), (a,2)] and credentials
a/1 the request is rejected with the UnauthorizedError response — the loop
does not stop at the first matching entry but keeps scanning and trips on
the later duplicate with a different password, so first-match semantics do
not hold. -/
theorem c1_counterexample :
    doHandleImages ⟨"data", [⟨"a", "1"⟩, ⟨"a", "2"⟩]⟩
        (fun _ => StatResult.errNotExist)
        ⟨"GET", "/images".toList, some ("a", "1"), Except.ok []⟩ =
      HttpResult.respond errorcodes.UnauthorizedError "UnauthorizedError"
        "Invalid username/password combination" := rfl

/-- Claim C1 amended: for every user database and supplied credential pair,
the authenticator scans the whole database (not stopping at the first name
match); it authenticates iff some entry's name equals the supplied username
and every entry with that name carries the supplied password, and it reports
an unknown account iff no entry's name matches.  In particular, for userdb
[(a,1), (a,2)], authenticating as a/1 fails with UnauthorizedError because
of the later duplicate entry with a different password. -/
theorem c1_auth_all_match (u p : String) (db : List UserEntry) :
    (authLoop u p db false = AuthResult.authenticated ↔
      ((∃ e ∈ db, e.name = u) ∧ ∀ e ∈ db, e.name = u → e.password = p)) ∧
    (authLoop u p db false = AuthResult.accountDoesNotExist ↔
      ∀ e ∈ db, e.name ≠ u) := by
  constructor
  · rw [authLoop_auth_iff u p db false]
    simp
  · rw [authLoop_ade_iff u p db false]
    simp

/-- Witness for C1 at the duplicate-name database of the claim. -/
theorem c1_witness :
    authLoop "a" "1" [⟨"a", "1"⟩, ⟨"a", "2"⟩] false ≠ AuthResult.authenticated := by
  intro hcon
  have h := ((c1_auth_all_match "a" "1" [⟨"a", "1"⟩, ⟨"a", "2"⟩]).1.mp hcon).2
      ⟨"a", "2"⟩ (by simp) rfl
  exact absurd h (by decide)

/-! ## Plumbing lemmas for the top-level dispatcher -/

/-- Without credentials the gate is skipped and dispatch runs anonymously. -/
theorem doHandleImages_anonymous (cfg : Configuration)
    (stat : String → StatResult) (r : Request)
    (hba : r.basicAuth = none) :
    doHandleImages cfg stat r = dispatchMethod cfg stat r false := by
  simp only [doHandleImages, hba]

/-- With credentials accepted by the loop, dispatch runs authenticated. -/
theorem doHandleImages_authenticated (cfg : Configuration)
    (stat : String → StatResult) (r : Request) (u p : String)
    (hba : r.basicAuth = some (u, p))
    (hauth : authLoop u p cfg.userdb false = AuthResult.authenticated) :
    doHandleImages cfg stat r = dispatchMethod cfg stat r true := by
  simp only [doHandleImages, hba, hauth]

/-- Reduction of the method branch for the three mutating verbs, for a
parsed query. -/
theorem dispatchMethod_mutating (cfg : Configuration)
    (stat : String → StatResult) (r : Request) (ps : Params) (b : Bool)
    (hq : r.query = Except.ok ps) :
    (r.method = "DELETE" → dispatchMethod cfg stat r b =
      cond b (doHandleDeleteImages cfg r.path ps)
        (HttpResult.bare errorcodes.UnauthorizedError)) ∧
    (r.method = "POST" → dispatchMethod cfg stat r b =
      cond b (doHandlePostImages cfg stat r.path ps)
        (HttpResult.bare errorcodes.UnauthorizedError)) ∧
    (r.method = "PUT" → dispatchMethod cfg stat r b =
      cond b (doHandlePutImages cfg r.path ps)
        (HttpResult.bare errorcodes.UnauthorizedError)) := by
  refine ⟨fun hm => ?_, fun hm => ?_, fun hm => ?_⟩ <;>
    simp only [dispatchMethod, hq, hm] <;>
    rw [if_neg (by decide)] <;>
    cases b <;> simp

/-- Claim C5 fails as stated: an anonymous DELETE whose query string fails
to parse is answered with the InternalError body response, not with a bare
UnauthorizedError status. -/
theorem c5_counterexample :
    doHandleImages ⟨"data", []⟩ (fun _ => StatResult.errNotExist)
        ⟨"DELETE", "/images/abc".toList, none, Except.error ()⟩ =
      HttpResult.respond errorcodes.InternalError "InternalError"
        "Failed to parse query" ∧
    doHandleImages ⟨"data", []⟩ (fun _ => StatResult.errNotExist)
        ⟨"DELETE", "/images/abc".toList, none, Except.error ()⟩ ≠
      HttpResult.bare errorcodes.UnauthorizedError := ⟨rfl, by decide⟩

/-- Claim C5 amended: for every DELETE, POST, or PUT request with no
credentials supplied whose query string parses successfully, the server
responds with a bare UnauthorizedError status and no body (so no operation
handler is reached); when the query string fails to parse, the response is
the InternalError body instead. -/
theorem c5_anonymous_mutation_gate (cfg : Configuration)
    (stat : String → StatResult) (r : Request) (ps : Params)
    (hanon : r.basicAuth = none)
    (hq : r.query = Except.ok ps)
    (hm : r.method = "DELETE" ∨ r.method = "POST" ∨ r.method = "PUT") :
    doHandleImages cfg stat r = HttpResult.bare errorcodes.UnauthorizedError := by
  rw [doHandleImages_anonymous cfg stat r hanon]
  rcases hm with hm | hm | hm
  · exact (dispatchMethod_mutating cfg stat r ps false hq).1 hm
  · exact (dispatchMethod_mutating cfg stat r ps false hq).2.1 hm
  · exact (dispatchMethod_mutating cfg stat r ps false hq).2.2 hm

/-- Witness for C5: a concrete anonymous POST receives the bare status. -/
theorem c5_witness :
    doHandleImages ⟨"data", []⟩ (fun _ => StatResult.errNotExist)
        ⟨"POST", "/images/abc".toList, none, Except.ok []⟩ =
      HttpResult.bare errorcodes.UnauthorizedError :=
  c5_anonymous_mutation_gate ⟨"data", []⟩ (fun _ => StatResult.errNotExist)
    ⟨"POST", "/images/abc".toList, none, Except.ok []⟩ [] rfl rfl
    (Or.inr (Or.inl rfl))

/-- Claim C10: when the HTTP method is non-empty and none of GET, DELETE,
POST, or PUT, once the credential check accepts (or no credentials were
supplied) and the query string parses, the dispatcher matches no branch and
returns without writing any status or body. -/
theorem c10_unknown_method_no_response (cfg : Configuration)
    (stat : String → StatResult) (r : Request) (ps : Params)
    (hauth : ∀ u p, r.basicAuth = some (u, p) →
      authLoop u p cfg.userdb false = AuthResult.authenticated)
    (hq : r.query = Except.ok ps)
    (h0 : r.method ≠ "") (h1 : r.method ≠ "GET") (h2 : r.method ≠ "DELETE")
    (h3 : r.method ≠ "POST") (h4 : r.method ≠ "PUT") :
    doHandleImages cfg stat r = HttpResult.noResponse := by
  have hdm : ∀ b, dispatchMethod cfg stat r b = HttpResult.noResponse := by
    intro b
    simp only [dispatchMethod, hq]
    rw [if_neg, if_neg h2, if_neg h3, if_neg h4]
    rintro (hl | hg)
    · apply h0
      cases hs : r.method with
      | mk data =>
        rw [hs] at hl
        rw [List.length_eq_zero.mp hl]
    · exact h1 hg
  cases hba : r.basicAuth with
  | none => rw [doHandleImages_anonymous cfg stat r hba, hdm]
  | some up =>
    rw [doHandleImages_authenticated cfg stat r up.1 up.2 (by rw [hba])
      (hauth up.1 up.2 (by rw [hba])), hdm]

/-- Witness for C10: a concrete PATCH request produces no response. -/
theorem c10_witness :
    doHandleImages ⟨"data", []⟩ (fun _ => StatResult.errNotExist)
        ⟨"PATCH", "/images/abc".toList, none, Except.ok []⟩ =
      HttpResult.noResponse :=
  c10_unknown_method_no_response ⟨"data", []⟩ (fun _ => StatResult.errNotExist)
    ⟨"PATCH", "/images/abc".toList, none, Except.ok []⟩ []
    (fun u p h => nomatch h) rfl (by decide) (by decide) (by decide)
    (by decide) (by decide)

/-- Claim C7 fails as stated: "/images//bogus" parses successfully, yet the
returned uuid is empty and the returned subresource "/bogus" is none of
"/file", "/icon", "/acl" or the empty tag — the parser validates neither. -/
theorem c7_counterexample :
    splitImagesUrl ("/images//bogus".toList) =
      Except.ok (([] : List Char), "/bogus".toList) ∧
    ¬ (("/bogus".toList : List Char) = "/file".toList ∨
       "/bogus".toList = "/icon".toList ∨
       "/bogus".toList = "/acl".toList ∨
       "/bogus".toList = ([] : List Char)) := ⟨rfl, by decide⟩

/-- Claim C7 amended: whenever the URL parser succeeds, the remainder after
the "/images/" prefix (uuid and subresource together) is non-empty and the
subresource is either empty or begins with a slash, but the uuid itself may
be empty and the subresource is passed through without validation; for all
paths not starting with "/images/" (no suffix t makes the path equal
"/images/" followed by t), and for the path "/images/" itself with empty
remainder, the parser fails with the InvalidURL error. -/
theorem c7_parse_invariants :
    (∀ url u f, splitImagesUrl url = Except.ok (u, f) →
        u ++ f ≠ [] ∧ (f = [] ∨ f.head? = some '/')) ∧
    (∀ url, (¬ ∃ t, "/images/".toList ++ t = url) →
        splitImagesUrl url = Except.error "Invalid url") ∧
    splitImagesUrl ("/images/".toList) = Except.error "Invalid url" := by
  refine ⟨fun url u f h =>
    ⟨(splitImagesUrl_ok url u f h).2.1, (splitImagesUrl_ok url u f h).2.2⟩,
    fun url hno => ?_, rfl⟩
  have hc : ¬ (url.take 8 = "/images/".toList) := by
    intro htake
    exact hno ⟨url.drop 8, by rw [← htake]; exact List.take_append_drop 8 url⟩
  unfold splitImagesUrl
  rw [if_neg hc]

/-- Witness for C7: a successful parse with a non-empty remainder, and a
failing parse for a path outside the images tree. -/
theorem c7_witness :
    ("abc".toList ++ ([] : List Char) ≠ []) ∧
    splitImagesUrl ("/xyz".toList) = Except.error "Invalid url" := by
  refine ⟨(c7_parse_invariants.1 ("/images/abc".toList) ("abc".toList) [] rfl).1,
    c7_parse_invariants.2.1 ("/xyz".toList) ?_⟩
  rintro ⟨t, ht⟩
  have hlen := congrArg List.length ht
  rw [List.length_append] at hlen
  have h8 : ("/images/".toList : List Char).length = 8 := rfl
  have h4 : ("/xyz".toList : List Char).length = 4 := rfl
  rw [h8, h4] at hlen
  omega

/-- Claim C4: on every GET routing path that parses, a *successful* stat (the
filesystem path exists) yields the ResourceNotFound response, and only a
failing stat dispatches — to manifest-get for the empty tag, icon-get for
"/icon", file-get for "/file", with any other tag answered
ResourceNotFound. -/
theorem c4_get_stat_inverted (cfg : Configuration) (stat : String → StatResult)
    (path : List Char) (params : Params) (uuid file : List Char)
    (hparse : splitImagesUrl path = Except.ok (uuid, file)) :
    (stat (resourcePath cfg uuid) = StatResult.ok →
        doHandleGetImages cfg stat path params =
          HttpResult.respond errorcodes.ResourceNotFound "ResourceNotFound"
            ("Failed to locate " ++ resourcePath cfg uuid ++ ": <nil>")) ∧
    (stat (resourcePath cfg uuid) ≠ StatResult.ok →
        doHandleGetImages cfg stat path params =
          (if file = [] then HttpResult.call Op.GetImage (resourcePath cfg uuid)
           else if file = "/icon".toList then
             HttpResult.call Op.GetImageIcon (resourcePath cfg uuid)
           else if file = "/file".toList then
             HttpResult.call Op.GetImageFile (resourcePath cfg uuid)
           else HttpResult.respond errorcodes.ResourceNotFound
             "ResourceNotFound" "Requested resource does not exist")) := by
  have hne := split_ok_ne_images path uuid file hparse
  constructor
  · intro hstat
    simp only [doHandleGetImages, if_neg hne, hparse, hstat]
  · intro hstat
    simp only [doHandleGetImages, if_neg hne, hparse]
    cases hst : stat (resourcePath cfg uuid) with
    | ok => exact absurd hst hstat
    | errNotExist =>
      by_cases hf : file = []
      · subst hf; simp
      · rw [if_neg (fun h => hf (List.length_eq_zero.mp h)), if_neg hf]
    | errOther msg =>
      by_cases hf : file = []
      · subst hf; simp
      · rw [if_neg (fun h => hf (List.length_eq_zero.mp h)), if_neg hf]

/-- Witness for C4: a concrete GET whose uuid exists on disk is answered
ResourceNotFound. -/
theorem c4_witness :
    doHandleGetImages ⟨"data", []⟩ (fun _ => StatResult.ok)
        ("/images/abc".toList) [] =
      HttpResult.respond errorcodes.ResourceNotFound "ResourceNotFound"
        "Failed to locate data/abc: <nil>" :=
  (c4_get_stat_inverted ⟨"data", []⟩ (fun _ => StatResult.ok)
    ("/images/abc".toList) [] ("abc".toList) [] rfl).1 rfl

/-- Claim C9: for every authenticated PUT request with a parsed query, the
server delegates to the file-add operation with the path datadir/uuid
exactly when the URL parses with subresource "/file", and responds
InvalidParameter in every other case. -/
theorem c9_put_routing (cfg : Configuration) (stat : String → StatResult)
    (r : Request) (ps : Params) (u p : String)
    (hm : r.method = "PUT") (hq : r.query = Except.ok ps)
    (hba : r.basicAuth = some (u, p))
    (hauth : authLoop u p cfg.userdb false = AuthResult.authenticated) :
    (∀ uuid, splitImagesUrl r.path = Except.ok (uuid, "/file".toList) →
        doHandleImages cfg stat r =
          HttpResult.call Op.AddImageFile (resourcePath cfg uuid)) ∧
    ((∀ uuid file, splitImagesUrl r.path = Except.ok (uuid, file) →
        file ≠ "/file".toList) →
        doHandleImages cfg stat r =
          HttpResult.respond errorcodes.InvalidParameter "InvalidParameter"
            "Failed to decode URL") := by
  have hred : doHandleImages cfg stat r = doHandlePutImages cfg r.path ps := by
    rw [doHandleImages_authenticated cfg stat r u p hba hauth,
      (dispatchMethod_mutating cfg stat r ps true hq).2.2 hm]
    rfl
  constructor
  · intro uuid hget
    rw [hred]
    simp only [doHandlePutImages, hget]
    rw [if_pos trivial]
  · intro hno
    rw [hred]
    cases hsp : splitImagesUrl r.path with
    | error e => simp only [doHandlePutImages, hsp]
    | ok pr =>
      obtain ⟨uuid, file⟩ := pr
      simp only [doHandlePutImages, hsp]
      rw [if_neg (hno uuid file hsp)]

/-- Witness for C9: a concrete authenticated PUT to /images/abc/file
dispatches to the file-add operation. -/
theorem c9_witness :
    doHandleImages ⟨"data", [⟨"u", "p"⟩]⟩ (fun _ => StatResult.errNotExist)
        ⟨"PUT", "/images/abc/file".toList, some ("u", "p"), Except.ok []⟩ =
      HttpResult.call Op.AddImageFile
        (resourcePath ⟨"data", [⟨"u", "p"⟩]⟩ ("abc".toList)) :=
  (c9_put_routing ⟨"data", [⟨"u", "p"⟩]⟩ (fun _ => StatResult.errNotExist)
    ⟨"PUT", "/images/abc/file".toList, some ("u", "p"), Except.ok []⟩ []
    "u" "p" rfl rfl rfl rfl).1 ("abc".toList) rfl

/-- Claim C8: for every authenticated POST to /images/:uuid with empty
subresource whose filesystem path exists, a present action parameter whose
*first* value is outside the dispatch table yields InvalidParameter with the
offending value quoted inside the message, and an absent action parameter
yields InvalidParameter with the fixed message. -/
theorem c8_action_resolver (cfg : Configuration) (stat : String → StatResult)
    (r : Request) (ps : Params) (u p : String) (uuid : List Char)
    (hm : r.method = "POST") (hq : r.query = Except.ok ps)
    (hba : r.basicAuth = some (u, p))
    (hauth : authLoop u p cfg.userdb false = AuthResult.authenticated)
    (hparse : splitImagesUrl r.path = Except.ok (uuid, []))
    (hstat : stat (resourcePath cfg uuid) = StatResult.ok) :
    (∀ a rest, getParam ps "action" = some (a :: rest) →
        a ∉ ["activate", "update", "disable", "enable", "export",
             "copy-remote", "import-remote", "import", "channel-add"] →
        doHandleImages cfg stat r =
          HttpResult.respond errorcodes.InvalidParameter "InvalidParameter"
            ("Invalid action \"" ++ a ++ "\"")) ∧
    (getParam ps "action" = none →
        doHandleImages cfg stat r =
          HttpResult.respond errorcodes.InvalidParameter "InvalidParameter"
            "action parameter not specified") := by
  have hpath := split_ok_ne_images r.path uuid [] hparse
  have hred : doHandleImages cfg stat r = doHandlePostImages cfg stat r.path ps := by
    rw [doHandleImages_authenticated cfg stat r u p hba hauth,
      (dispatchMethod_mutating cfg stat r ps true hq).2.1 hm]
    rfl
  constructor
  · intro a rest hget hnot
    simp only [List.mem_cons, List.not_mem_nil, or_false, not_or] at hnot
    obtain ⟨n1, n2, n3, n4, n5, n6, n7, n8, n9⟩ := hnot
    rw [hred]
    simp only [doHandlePostImages, if_neg hpath, hparse, hstat, hget,
      List.head?_cons]
    rw [if_pos trivial, if_neg n1, if_neg n2, if_neg n3, if_neg n4,
      if_neg n5, if_neg n6, if_neg n7, if_neg n8, if_neg n9,
      if_neg (show ¬(([] : List Char) = "/icon".toList) by decide),
      if_neg (show ¬(([] : List Char) = "/acl".toList) by decide)]
  · intro hget
    rw [hred]
    simp only [doHandlePostImages, if_neg hpath, hparse, hstat, hget]
    rw [if_pos trivial,
      if_neg (show ¬(([] : List Char) = "/icon".toList) by decide),
      if_neg (show ¬(([] : List Char) = "/acl".toList) by decide)]

/-- Witness for C8: a concrete authenticated POST with a repeated action
parameter whose first value is "bogus" gets InvalidParameter quoting it. -/
theorem c8_witness :
    doHandleImages ⟨"data", [⟨"u", "p"⟩]⟩
        (fun s => if s = "data/abc" then StatResult.ok else StatResult.errNotExist)
        ⟨"POST", "/images/abc".toList, some ("u", "p"),
          Except.ok [("action", ["bogus", "ignored"])]⟩ =
      HttpResult.respond errorcodes.InvalidParameter "InvalidParameter"
        "Invalid action \"bogus\"" :=
  (c8_action_resolver ⟨"data", [⟨"u", "p"⟩]⟩
    (fun s => if s = "data/abc" then StatResult.ok else StatResult.errNotExist)
    ⟨"POST", "/images/abc".toList, some ("u", "p"),
      Except.ok [("action", ["bogus", "ignored"])]⟩
    [("action", ["bogus", "ignored"])] "u" "p" ("abc".toList)
    rfl rfl rfl rfl rfl (by decide)).1 "bogus" ["ignored"] rfl (by decide)

/-- Claim C2: at the failing input — an authenticated POST to /images/abc
with action=export and the path existing — the code writes no response at
all (the Go switch case for "export" has an empty body and does not fall
through), while the same request with action=channel-add does receive the
InsufficientServerVersion response naming the action. -/
theorem c2_export_no_response :
    doHandleImages ⟨"d", [⟨"u", "p"⟩]⟩
        (fun s => if s = "d/abc" then StatResult.ok else StatResult.errNotExist)
        ⟨"POST", "/images/abc".toList, some ("u", "p"),
          Except.ok [("action", ["export"])]⟩ = HttpResult.noResponse ∧
    doHandleImages ⟨"d", [⟨"u", "p"⟩]⟩
        (fun s => if s = "d/abc" then StatResult.ok else StatResult.errNotExist)
        ⟨"POST", "/images/abc".toList, some ("u", "p"),
          Except.ok [("action", ["channel-add"])]⟩ =
      HttpResult.respond errorcodes.InsufficientServerVersion
        "InsufficientServerVersion"
        "action=\"channel-add\" is not implemented" := ⟨by decide, by decide⟩

/-- Claim C3: the branch of the action resolver taken for an authenticated
POST to /images/img1 with action=import and an existing path returns without
producing any response — a dispatch branch that writes nothing, contradicting
the one-response-per-request design. -/
theorem c3_branch_without_response :
    doHandleImages ⟨"dd", [⟨"op", "pw"⟩]⟩
        (fun s => if s = "dd/img1" then StatResult.ok else StatResult.errNotExist)
        ⟨"POST", "/images/img1".toList, some ("op", "pw"),
          Except.ok [("action", ["import"])]⟩ = HttpResult.noResponse := by
  decide
